import Mathlib

/-!
Shallow embedding of `absl/random/internal/uniform_helper.h` (abseil-cpp).

The header defines four interval tag types and overloaded pure functions
`uniform_lower_bound(tag, a, b)` / `uniform_upper_bound(tag, a, b)` that
normalize a closed/open/half-open interval request into the canonical
`(lo, hi)` pair fed to the platform uniform samplers, plus a thin wrapper
`UniformDistributionWrapper` that constructs the underlying sampler from the
normalized pair.

Embedding choices, faithful to the source:

* The four empty tag structs `IntervalClosedClosedT`, `IntervalClosedOpenT`,
  `IntervalOpenClosedT`, `IntervalOpenOpenT` become the four constructors of
  the inductive `IntervalKind`; the C++ overload sets on the tag type become
  a `match` on the kind.

* C++ integral types: in the regime where `a + 1` and `b - 1` neither
  overflow nor wrap (the "safe sub-range"), machine arithmetic of every
  integral type, signed or unsigned, agrees with arithmetic on `Int`; the
  `_int` functions embed the integral overloads there.  For unsigned types
  of width `w`, where C++ defines wrap-around modulo `2 ^ w`, the `_uint`
  functions embed the same overloads with the wrap made explicit on `Nat`.

* C++ floating-point types: the non-NaN values of a binary floating-point
  format, ordered as the reals they represent, are order-isomorphic to an
  interval of integers; we index them by their ordinal, with `0` for zero,
  positive ordinals for positive values, `maxFinite` the ordinal of the
  largest finite value and `maxFinite + 1` the ordinal of `+infinity`.
  Under this isomorphism IEEE-754 / C99 `std::nextafter` is `nextafter`
  below: it returns `y` when `x = y`, and otherwise steps the ordinal one
  unit toward `y`.  All claims about the float overloads concern only order,
  adjacency and exact equality of non-NaN values, which the isomorphism
  preserves; NaN inputs are outside every claim's contract.

* The platform samplers `absl::uniform_int_distribution` and
  `absl::uniform_real_distribution` are only forward-declared in the header;
  `UniformDistribution` models them from the spec (see its doc comment).
-/

/-- The four interval tag types of the header
(`IntervalClosedClosedT`, `IntervalClosedOpenT`, `IntervalOpenClosedT`,
`IntervalOpenOpenT`), as one inductive consumed by a `match`. -/
inductive IntervalKind where
  | closedClosed
  | closedOpen
  | openClosed
  | openOpen
deriving DecidableEq, Repr

/-- C99 / IEEE-754 `nextafter` on float ordinals: returns `y` if `x = y`,
otherwise the adjacent representable value (ordinal one step) toward `y`. -/
def nextafter (x y : Int) : Int :=
  if x = y then y else if x < y then x + 1 else x - 1

/-- `uniform_lower_bound` for integral types in the no-overflow regime:
`a + 1` for the open-lower tags (lines 55-64 of the header), `a` for the
closed-lower tags (lines 77-84).  The second numeric argument is unused by
the source (`uniform_lower_bound(Tag, IntType a, IntType)`). -/
def uniform_lower_bound_int (k : IntervalKind) (a _b : Int) : Int :=
  match k with
  | .openClosed => a + 1
  | .openOpen => a + 1
  | .closedClosed => a
  | .closedOpen => a

/-- `uniform_upper_bound` for integral types in the no-overflow regime:
`b - 1` for the open-upper tags (lines 86-95), `b` for the closed-upper
tags (lines 108-117).  The first numeric argument is unused by the source
(`uniform_upper_bound(Tag, IntType, IntType b)`). -/
def uniform_upper_bound_int (k : IntervalKind) (_a b : Int) : Int :=
  match k with
  | .closedOpen => b - 1
  | .openOpen => b - 1
  | .closedClosed => b
  | .openClosed => b

/-- `uniform_lower_bound` for an unsigned integral type of width `w`:
C++ unsigned arithmetic wraps modulo `2 ^ w`, so `a + 1` becomes
`(a + 1) % 2 ^ w`; the closed-lower overload returns `a` unchanged. -/
def uniform_lower_bound_uint (w : Nat) (k : IntervalKind) (a _b : Nat) : Nat :=
  match k with
  | .openClosed => (a + 1) % 2 ^ w
  | .openOpen => (a + 1) % 2 ^ w
  | .closedClosed => a
  | .closedOpen => a

/-- `uniform_upper_bound` for an unsigned integral type of width `w`:
C++ unsigned `b - 1` is `(b + (2 ^ w - 1)) % 2 ^ w`; the closed-upper
overload returns `b` unchanged. -/
def uniform_upper_bound_uint (w : Nat) (k : IntervalKind) (_a b : Nat) : Nat :=
  match k with
  | .closedOpen => (b + (2 ^ w - 1)) % 2 ^ w
  | .openOpen => (b + (2 ^ w - 1)) % 2 ^ w
  | .closedClosed => b
  | .openClosed => b

/-- `uniform_lower_bound` for floating-point types on float ordinals:
`std::nextafter(a, b)` for the open-lower tags (lines 66-75), `a` for the
closed-lower tags (lines 77-84). -/
def uniform_lower_bound_float (k : IntervalKind) (a b : Int) : Int :=
  match k with
  | .openClosed => nextafter a b
  | .openOpen => nextafter a b
  | .closedClosed => a
  | .closedOpen => a

/-- `uniform_upper_bound` for floating-point types on float ordinals,
where `maxFinite` is the ordinal of `std::numeric_limits<FloatType>::max()`:
`b` for the open-upper tags (lines 97-106), and
`std::nextafter(b, std::numeric_limits<FloatType>::max())` for the
closed-upper tags (lines 119-128).  Note the direction argument in the
source is the largest finite value, not `+infinity`. -/
def uniform_upper_bound_float (maxFinite : Int) (k : IntervalKind) (_a b : Int) : Int :=
  match k with
  | .closedOpen => b
  | .openOpen => b
  | .closedClosed => nextafter b maxFinite
  | .openClosed => nextafter b maxFinite

/-- Modelled from the spec: the platform samplers
`absl::uniform_int_distribution` / `absl::uniform_real_distribution` are only
forward-declared in the header (lines 25-29), not defined under `src/`.  Per
the spec they are external collaborators constructed from a `(lo, hi)` pair;
we model a constructed sampler as the pair it was configured with, and its
draw as an arbitrary sampling function applied to that pair and the caller's
generator state. -/
structure UniformDistribution (alpha : Type) where
  lo : alpha
  hi : alpha
deriving DecidableEq, Repr

/-- Modelled from the spec: drawing from a constructed sampler applies the
platform's sampling algorithm (an arbitrary function of the configured pair
and the generator state) to `(lo, hi)` and the generator. -/
def UniformDistribution.draw {alpha gen : Type} (d : UniformDistribution alpha)
    (sample : alpha → alpha → gen → alpha × gen) (g : gen) : alpha × gen :=
  sample d.lo d.hi g

/-- `UniformDistributionWrapper<TagType, NumType>` (lines 136-142) for an
integral `NumType` in the no-overflow regime: the constructor initializes the
base `UniformDistribution<NumType>` with
`(uniform_lower_bound(TagType{}, lo, hi), uniform_upper_bound(TagType{}, lo, hi))`
and adds nothing else, so the inherited draw is the base class's. -/
def UniformDistributionWrapperInt (k : IntervalKind) (a b : Int) :
    UniformDistribution Int :=
  { lo := uniform_lower_bound_int k a b, hi := uniform_upper_bound_int k a b }

/-- `UniformDistributionWrapper<TagType, NumType>` (lines 136-142) for a
floating-point `NumType`, on float ordinals with `maxFinite` the ordinal of
the type's largest finite value. -/
def UniformDistributionWrapperFloat (maxFinite : Int) (k : IntervalKind)
    (a b : Int) : UniformDistribution Int :=
  { lo := uniform_lower_bound_float k a b
    hi := uniform_upper_bound_float maxFinite k a b }

/-- Claim C2: for every integer type and all `a ≤ b` in the safe sub-range
(where `a + 1` and `b - 1` do not overflow, so machine arithmetic agrees
with `Int`), the normalized pair is `(a, b)` for ClosedClosed, `(a, b - 1)`
for ClosedOpen, `(a + 1, b)` for OpenClosed, and `(a + 1, b - 1)` for
OpenOpen. -/
theorem uniform_bounds_int_table (a b : Int) (h : a ≤ b) :
    (uniform_lower_bound_int .closedClosed a b,
      uniform_upper_bound_int .closedClosed a b) = (a, b) ∧
    (uniform_lower_bound_int .closedOpen a b,
      uniform_upper_bound_int .closedOpen a b) = (a, b - 1) ∧
    (uniform_lower_bound_int .openClosed a b,
      uniform_upper_bound_int .openClosed a b) = (a + 1, b) ∧
    (uniform_lower_bound_int .openOpen a b,
      uniform_upper_bound_int .openOpen a b) = (a + 1, b - 1) := by
  refine ⟨rfl, rfl, rfl, rfl⟩

/-- Witness for C2 at the spec's concrete scenarios A-D: `(a, b) = (3, 7)`. -/
theorem uniform_bounds_int_table_witness :
    (uniform_lower_bound_int .closedClosed 3 7,
      uniform_upper_bound_int .closedClosed 3 7) = (3, 7) ∧
    (uniform_lower_bound_int .closedOpen 3 7,
      uniform_upper_bound_int .closedOpen 3 7) = (3, 6) ∧
    (uniform_lower_bound_int .openClosed 3 7,
      uniform_upper_bound_int .openClosed 3 7) = (4, 7) ∧
    (uniform_lower_bound_int .openOpen 3 7,
      uniform_upper_bound_int .openOpen 3 7) = (4, 6) := by
  have h := uniform_bounds_int_table 3 7 (by decide)
  simpa using h

/-- Claim C6: for every integer type and `a` with `a` and `a + 1`
representable, if `b = a + 1` then the OpenOpen normalized range is
`(a + 1, a)`, an empty range with `lo > hi`. -/
theorem uniform_bounds_int_open_open_adjacent_empty (a b : Int) (h : b = a + 1) :
    uniform_lower_bound_int .openOpen a b = a + 1 ∧
    uniform_upper_bound_int .openOpen a b = a ∧
    uniform_upper_bound_int .openOpen a b < uniform_lower_bound_int .openOpen a b := by
  subst h
  refine ⟨rfl, ?_, ?_⟩ <;> simp [uniform_lower_bound_int, uniform_upper_bound_int]

/-- Witness for C6 at `a = 3`, `b = 4`. -/
theorem uniform_bounds_int_open_open_adjacent_empty_witness :
    (4 : Int) = 3 + 1 ∧
    uniform_lower_bound_int .openOpen 3 4 = 4 ∧
    uniform_upper_bound_int .openOpen 3 4 = 3 ∧
    uniform_upper_bound_int .openOpen 3 4 < uniform_lower_bound_int .openOpen 3 4 := by
  have h := uniform_bounds_int_open_open_adjacent_empty 3 4 (by decide)
  exact ⟨by decide, by simpa using h⟩

/-- Claim C7: for an unsigned integer type of width `w`, endpoint adjustment
wraps modulo `2 ^ w`: the open-lower adjustment of `max_value = 2 ^ w - 1`
yields `0`, and the open-upper adjustment of `0` yields `max_value`. -/
theorem uniform_bounds_uint_wrap (w a b : Nat) (ha : a < 2 ^ w) (hb : b < 2 ^ w) :
    uniform_lower_bound_uint w .openClosed (2 ^ w - 1) b = 0 ∧
    uniform_lower_bound_uint w .openOpen (2 ^ w - 1) b = 0 ∧
    uniform_upper_bound_uint w .closedOpen a 0 = 2 ^ w - 1 ∧
    uniform_upper_bound_uint w .openOpen a 0 = 2 ^ w - 1 := by
  have hpos : 0 < 2 ^ w := Nat.pos_pow_of_pos w (by decide)
  have hsub : 2 ^ w - 1 + 1 = 2 ^ w := Nat.sub_add_cancel hpos
  have hlow : (2 ^ w - 1 + 1) % 2 ^ w = 0 := by rw [hsub]; exact Nat.mod_self _
  have hup : (0 + (2 ^ w - 1)) % 2 ^ w = 2 ^ w - 1 := by
    rw [Nat.zero_add]
    exact Nat.mod_eq_of_lt (Nat.sub_lt hpos (by decide))
  exact ⟨hlow, hlow, hup, hup⟩

/-- Witness for C7 on an 8-bit unsigned type: `max_value = 255`. -/
theorem uniform_bounds_uint_wrap_witness :
    uniform_lower_bound_uint 8 .openClosed 255 7 = 0 ∧
    uniform_lower_bound_uint 8 .openOpen 255 7 = 0 ∧
    uniform_upper_bound_uint 8 .closedOpen 5 0 = 255 ∧
    uniform_upper_bound_uint 8 .openOpen 5 0 = 255 := by
  have h := uniform_bounds_uint_wrap 8 5 7 (by decide) (by decide)
  simpa using h

/-- Claim C1 counterexample, on binary32 ordinals (`FLT_MAX` has ordinal
2139095039 and `+infinity` ordinal 2139095040): at `b = max_finite` the
ClosedClosed upper bound is `nextafter(max_finite, max_finite) = max_finite`
itself, because the source's direction argument is
`std::numeric_limits<FloatType>::max()`, not `+infinity`; the result is not
strictly greater than `b` and is not `+infinity`. -/
theorem uniform_upper_bound_float_at_max_finite_stays_finite :
    uniform_upper_bound_float 2139095039 .closedClosed 0 2139095039 = 2139095039 ∧
    ¬ (2139095039 < uniform_upper_bound_float 2139095039 .closedClosed 0 2139095039) ∧
    uniform_upper_bound_float 2139095039 .closedClosed 0 2139095039 ≠ 2139095040 := by
  decide

/-- Claim C1 as amended: for ClosedClosed and OpenClosed, for finite
`a ≤ b < max_finite` the upper bound is the successor ordinal `b + 1`, i.e.
strictly greater than `b` with no representable value strictly between; but
at `b = max_finite` the result is `max_finite` itself (the source steps
toward `max()`, and `nextafter(x, x) = x`), not `+infinity`. -/
theorem uniform_upper_bound_float_closed_upper_succ (maxFin a b : Int)
    (hab : a ≤ b) (hb : b < maxFin) :
    uniform_upper_bound_float maxFin .closedClosed a b = b + 1 ∧
    uniform_upper_bound_float maxFin .openClosed a b = b + 1 ∧
    b < uniform_upper_bound_float maxFin .closedClosed a b ∧
    (∀ c : Int, b < c → c < uniform_upper_bound_float maxFin .closedClosed a b → False) ∧
    uniform_upper_bound_float maxFin .closedClosed a maxFin = maxFin := by
  have hne : b ≠ maxFin := ne_of_lt hb
  have h1 : uniform_upper_bound_float maxFin .closedClosed a b = b + 1 := by
    show nextafter b maxFin = b + 1
    unfold nextafter
    rw [if_neg hne, if_pos hb]
  have h5 : uniform_upper_bound_float maxFin .closedClosed a maxFin = maxFin := by
    show nextafter maxFin maxFin = maxFin
    unfold nextafter
    rw [if_pos rfl]
  refine ⟨h1, h1, ?_, ?_, h5⟩
  · rw [h1]; omega
  · intro c hc1 hc2
    rw [h1] at hc2
    omega

/-- Witness for the amended C1 at `maxFin = 5`, `a = 1`, `b = 3`. -/
theorem uniform_upper_bound_float_closed_upper_succ_witness :
    uniform_upper_bound_float 5 .closedClosed 1 3 = 4 ∧
    uniform_upper_bound_float 5 .openClosed 1 3 = 4 ∧
    uniform_upper_bound_float 5 .closedClosed 1 5 = 5 := by
  have h := uniform_upper_bound_float_closed_upper_succ 5 1 3 (by decide) (by decide)
  exact ⟨h.1, h.2.1, h.2.2.2.2⟩

/-- Claim C3 counterexample: at `a = b = 0` (allowed by the claim's
`a ≤ b`), the open-lower bound is `nextafter(0, 0) = 0`, which is not
strictly greater than `a`; likewise for OpenClosed. -/
theorem uniform_lower_bound_float_open_at_equal_endpoints :
    uniform_lower_bound_float .openOpen 0 0 = 0 ∧
    ¬ (0 < uniform_lower_bound_float .openOpen 0 0) ∧
    uniform_lower_bound_float .openClosed 0 0 = 0 := by
  decide

/-- Claim C3 as amended: for `a < b` (strictly, rather than the claim's
`a ≤ b`), the open-lower bound for OpenOpen and OpenClosed equals
`nextafter(a, b)`, which is the successor ordinal `a + 1`: strictly greater
than `a` with no representable value strictly between; at `a = b` it equals
`a` itself. -/
theorem uniform_lower_bound_float_open_succ (a b : Int) (h : a < b) :
    uniform_lower_bound_float .openOpen a b = nextafter a b ∧
    uniform_lower_bound_float .openOpen a b = a + 1 ∧
    a < uniform_lower_bound_float .openOpen a b ∧
    (∀ c : Int, a < c → c < uniform_lower_bound_float .openOpen a b → False) ∧
    uniform_lower_bound_float .openClosed a b = a + 1 := by
  have hne : a ≠ b := ne_of_lt h
  have h1 : uniform_lower_bound_float .openOpen a b = a + 1 := by
    show nextafter a b = a + 1
    unfold nextafter
    rw [if_neg hne, if_pos h]
  refine ⟨rfl, h1, ?_, ?_, h1⟩
  · rw [h1]; omega
  · intro c hc1 hc2
    rw [h1] at hc2
    omega

/-- Witness for the amended C3 at `a = 0`, `b = 5`. -/
theorem uniform_lower_bound_float_open_succ_witness :
    uniform_lower_bound_float .openOpen 0 5 = 1 ∧
    uniform_lower_bound_float .openClosed 0 5 = 1 := by
  have h := uniform_lower_bound_float_open_succ 0 5 (by decide)
  exact ⟨h.2.1, h.2.2.2.2⟩

/-- Claim C4: for every floating-point type and all `a ≤ b`, the ClosedOpen
upper bound returns `b` exactly and the ClosedOpen lower bound returns `a`
exactly (the source returns the arguments unchanged). -/
theorem uniform_bounds_float_closed_open_exact (maxFin a b : Int) (h : a ≤ b) :
    uniform_upper_bound_float maxFin .closedOpen a b = b ∧
    uniform_lower_bound_float .closedOpen a b = a :=
  ⟨rfl, rfl⟩

/-- Witness for C4 at the spec's scenario E on binary32 ordinals:
`0.0f` has ordinal 0 and `1.0f` ordinal 1065353216 (bit pattern
`0x3F800000`), with `maxFin` the ordinal of `FLT_MAX`. -/
theorem uniform_bounds_float_closed_open_exact_witness :
    uniform_upper_bound_float 2139095039 .closedOpen 0 1065353216 = 1065353216 ∧
    uniform_lower_bound_float .closedOpen 0 1065353216 = 0 :=
  uniform_bounds_float_closed_open_exact 2139095039 0 1065353216 (by decide)

/-- Claim C5 counterexample, on binary32 ordinals: for the float overloads
with `a = b = 0` and kind OpenOpen, the normalized pair is `(0, 0)` —
`lo = hi`, not `lo > hi` as the claim asserts for every numeric type. -/
theorem uniform_bounds_float_open_equal_endpoints_not_empty :
    uniform_lower_bound_float .openOpen 0 0 = 0 ∧
    uniform_upper_bound_float 2139095039 .openOpen 0 0 = 0 ∧
    ¬ (uniform_upper_bound_float 2139095039 .openOpen 0 0 <
        uniform_lower_bound_float .openOpen 0 0) := by
  decide

/-- Claim C5 as amended: at `a = b`, the integer overloads under OpenClosed
and OpenOpen do give `lo > hi`; but the float overloads do not: OpenOpen
gives `lo = hi = a` (since `nextafter(a, a) = a`), and OpenClosed gives
`lo = a < hi = a + 1` for finite `a < max_finite`. -/
theorem uniform_bounds_open_equal_endpoints (a maxFin : Int) (h : a < maxFin) :
    uniform_upper_bound_int .openClosed a a < uniform_lower_bound_int .openClosed a a ∧
    uniform_upper_bound_int .openOpen a a < uniform_lower_bound_int .openOpen a a ∧
    uniform_lower_bound_float .openOpen a a = a ∧
    uniform_upper_bound_float maxFin .openOpen a a = a ∧
    uniform_lower_bound_float .openClosed a a = a ∧
    uniform_upper_bound_float maxFin .openClosed a a = a + 1 := by
  have hne : a ≠ maxFin := ne_of_lt h
  have hfl : nextafter a a = a := by
    unfold nextafter
    rw [if_pos rfl]
  have hfu : nextafter a maxFin = a + 1 := by
    unfold nextafter
    rw [if_neg hne, if_pos h]
  refine ⟨?_, ?_, hfl, rfl, hfl, hfu⟩
  · show a < a + 1
    omega
  · show a - 1 < a + 1
    omega

/-- Witness for the amended C5 at `a = 0`, `maxFin = 5`. -/
theorem uniform_bounds_open_equal_endpoints_witness :
    uniform_upper_bound_int .openOpen 0 0 < uniform_lower_bound_int .openOpen 0 0 ∧
    uniform_lower_bound_float .openOpen 0 0 = 0 ∧
    uniform_upper_bound_float 5 .openClosed 0 0 = 1 := by
  have h := uniform_bounds_open_equal_endpoints 0 5 (by decide)
  exact ⟨h.2.1, h.2.2.1, h.2.2.2.2.2⟩

/-- Claim C8: for every tag kind and both numeric domains, constructing
`UniformDistributionWrapper` from endpoints `(a, b)` initializes the
underlying sampler with exactly
`(uniform_lower_bound(kind, a, b), uniform_upper_bound(kind, a, b))`, and
its draw forwards to the underlying sampler unchanged. -/
theorem uniform_distribution_wrapper_forwards (k : IntervalKind) (maxFin a b : Int) :
    UniformDistributionWrapperInt k a b =
      UniformDistribution.mk (uniform_lower_bound_int k a b)
        (uniform_upper_bound_int k a b) ∧
    UniformDistributionWrapperFloat maxFin k a b =
      UniformDistribution.mk (uniform_lower_bound_float k a b)
        (uniform_upper_bound_float maxFin k a b) ∧
    (∀ (gen : Type) (sample : Int → Int → gen → Int × gen) (g : gen),
      (UniformDistributionWrapperInt k a b).draw sample g =
        (UniformDistribution.mk (uniform_lower_bound_int k a b)
          (uniform_upper_bound_int k a b)).draw sample g) ∧
    (∀ (gen : Type) (sample : Int → Int → gen → Int × gen) (g : gen),
      (UniformDistributionWrapperFloat maxFin k a b).draw sample g =
        (UniformDistribution.mk (uniform_lower_bound_float k a b)
          (uniform_upper_bound_float maxFin k a b)).draw sample g) :=
  ⟨rfl, rfl, fun _ _ _ => rfl, fun _ _ _ => rfl⟩

/-- Claim C9: the bound functions are deterministic — two calls on equal
inputs return equal outputs, for every kind, both integral embeddings and
the float embedding.  Statelessness holds by construction of the embedding:
the source functions mention nothing but their parameters, so they embed as
closed Lean functions of those parameters alone. -/
theorem uniform_bounds_deterministic (k k' : IntervalKind) (a a' b b' mf mf' : Int)
    (u u' v v' w w' : Nat)
    (hk : k = k') (ha : a = a') (hb : b = b') (hmf : mf = mf')
    (hu : u = u') (hv : v = v') (hw : w = w') :
    uniform_lower_bound_int k a b = uniform_lower_bound_int k' a' b' ∧
    uniform_upper_bound_int k a b = uniform_upper_bound_int k' a' b' ∧
    uniform_lower_bound_uint w k u v = uniform_lower_bound_uint w' k' u' v' ∧
    uniform_upper_bound_uint w k u v = uniform_upper_bound_uint w' k' u' v' ∧
    uniform_lower_bound_float k a b = uniform_lower_bound_float k' a' b' ∧
    uniform_upper_bound_float mf k a b = uniform_upper_bound_float mf' k' a' b' := by
  subst hk ha hb hmf hu hv hw
  exact ⟨rfl, rfl, rfl, rfl, rfl, rfl⟩

/-- Witness for C9 at concrete equal inputs. -/
theorem uniform_bounds_deterministic_witness :
    uniform_lower_bound_int .openOpen 2 9 = uniform_lower_bound_int .openOpen 2 9 ∧
    uniform_upper_bound_float 7 .openOpen 2 9 =
      uniform_upper_bound_float 7 .openOpen 2 9 := by
  have h := uniform_bounds_deterministic .openOpen .openOpen 2 2 9 9 7 7 1 1 4 4 8 8
    rfl rfl rfl rfl rfl rfl rfl
  exact ⟨h.1, h.2.2.2.2.2⟩

/-- Claim C10: every `uniform_upper_bound` overload ignores its first
numeric argument — the result depends only on the kind, the type (width
`w` or `maxFinite`), and `b`. -/
theorem uniform_upper_bound_independent_of_lower (k : IntervalKind)
    (a a' b mf : Int) (w u u' v : Nat) :
    uniform_upper_bound_int k a b = uniform_upper_bound_int k a' b ∧
    uniform_upper_bound_uint w k u v = uniform_upper_bound_uint w k u' v ∧
    uniform_upper_bound_float mf k a b = uniform_upper_bound_float mf k a' b := by
  cases k <;> exact ⟨rfl, rfl, rfl⟩
